import Mathlib

/- Verification development for the rendering and flocking demo: shallow
   embeddings of the UI composite shader, the BRDF LUT cache lookup, the
   instanced-buffer builder, the camera-follow index clamping, the per-frame
   schedule, the pipeline pass chain, and the boid flocking update, together
   with theorems settling the specified properties. -/

/-- Components of a GLSL vec4, modelled over exact rationals. -/
structure Vec4Q where
  r : ℚ
  g : ℚ
  b : ℚ
  a : ℚ
  deriving DecidableEq

/-- Componentwise vec4 addition. -/
def Vec4Q.add (u v : Vec4Q) : Vec4Q :=
  ⟨u.r + v.r, u.g + v.g, u.b + v.b, u.a + v.a⟩

/-- Componentwise vec4 division by a scalar. -/
def Vec4Q.divScalar (u : Vec4Q) (s : ℚ) : Vec4Q :=
  ⟨u.r / s, u.g / s, u.b / s, u.a / s⟩

/-- GLSL clamp(x, lo, hi) = min(max(x, lo), hi). -/
def glClamp (x lo hi : ℚ) : ℚ := min (max x lo) hi

/-- GLSL mix(x, y, t) = x * (1 - t) + y * t. -/
def glMix (x y t : ℚ) : ℚ := x * (1 - t) + y * t

/-- Texel offsets visited by the 3x3 double loop of uiCompositeShaderFS
(outer x from -1 to 1, inner y from -1 to 1), in loop order. -/
def blurOffsets : List (ℤ × ℤ) :=
  [(-1, -1), (-1, 0), (-1, 1), (0, -1), (0, 0), (0, 1), (1, -1), (1, 0), (1, 1)]

/-- Fragment computation of the UI composite shader uiCompositeShaderFS
(src/src/shaders/uiComposite.ts): color is the src-buffer fetch at the
fragment, the nine UI-texture fetches around the aspect-corrected UI
coordinate are abstracted as a function of the integer texel offset; they are
accumulated, divided by 9, the alpha channel is clamped to [0, 0.999] and the
output is the mix of the src color towards black by that alpha, with output
alpha forced to 1. -/
def uiCompositeFrag (color : Vec4Q) (uiTexel : ℤ → ℤ → Vec4Q) : Vec4Q :=
  let uiColor := blurOffsets.foldl (fun acc o => acc.add (uiTexel o.1 o.2)) (⟨0, 0, 0, 0⟩ : Vec4Q)
  let uiColor9 := uiColor.divScalar 9
  let alpha := glClamp (uiColor9.a * 1) 0 (999 / 1000)
  { r := glMix color.r 0 alpha
    g := glMix color.g 0 alpha
    b := glMix color.b 0 alpha
    a := 1 }

/-- The compositing rule exactly as the spec words it: blurredAlpha is the
3x3 box-blur average (sum of the nine neighboring texels divided by 9) of the
UI buffer alpha channel, and output = mix(baseColor, black,
clamp(blurredAlpha, 0, 0.999)). -/
def uiCompositeSpec (base : Vec4Q) (uiTexel : ℤ → ℤ → Vec4Q) : Vec4Q :=
  let blurredAlpha :=
    ((uiTexel (-1) (-1)).a + (uiTexel (-1) 0).a + (uiTexel (-1) 1).a +
     (uiTexel 0 (-1)).a + (uiTexel 0 0).a + (uiTexel 0 1).a +
     (uiTexel 1 (-1)).a + (uiTexel 1 0).a + (uiTexel 1 1).a) / 9
  let t := glClamp blurredAlpha 0 (999 / 1000)
  { r := glMix base.r 0 t
    g := glMix base.g 0 t
    b := glMix base.b 0 t
    a := 1 }

/-- LUT resolution from src/src/envMaps.ts. -/
def BRDF_LUT_SIZE : ℕ := 512

/-- Versioned cache key from src/src/envMaps.ts. -/
def BRDF_LUT_CACHE_KEY : String := "brdfLUT_v1_512"

/-- Result of generateBrdfLUT: either the texture rebuilt from the cached
bytes, or the freshly computed render-target texture. -/
inductive BrdfLUTResult where
  | cached (bytes : List ℕ)
  | computed
  deriving DecidableEq

/-- Model of loadBrdfLUTFromCache (src/src/envMaps.ts): localStorage
availability, the getItem lookup, and the atob-based decodeBase64ToBytes are
inputs; decode returns none where atob would throw (the catch branch returns
null). A missing or empty entry, an undecodable entry, and an entry of wrong
byte length all yield none. -/
def loadBrdfLUTFromCache (canUseLocalStorage : Bool) (getItem : String → Option String)
    (decode : String → Option (List ℕ)) : Option (List ℕ) :=
  if !canUseLocalStorage then none
  else
    match getItem BRDF_LUT_CACHE_KEY with
    | none => none
    | some cached =>
      if cached = "" then none
      else
        match decode cached with
        | none => none
        | some bytes =>
          if bytes.length ≠ BRDF_LUT_SIZE * BRDF_LUT_SIZE * 4 then none else some bytes

/-- Model of generateBrdfLUT (src/src/envMaps.ts): return the cached texture
when the cache lookup succeeds, otherwise recompute. -/
def generateBrdfLUT (canUseLocalStorage : Bool) (getItem : String → Option String)
    (decode : String → Option (List ℕ)) : BrdfLUTResult :=
  match loadBrdfLUTFromCache canUseLocalStorage getItem decode with
  | some bytes => .cached bytes
  | none => .computed

/-- JS value found at objs[i].material[desc.name] by buildInstanced: a number,
an object carrying toArray (vectors, colors), or anything else (undefined,
strings, ...), which has no toArray. -/
inductive JsAttrValue where
  | num (v : ℚ)
  | vec (comps : List ℚ)
  | other
  deriving DecidableEq

/-- Shader attribute descriptor: name and component count. -/
structure AttrDesc where
  name : String
  size : ℕ
  deriving DecidableEq

/-- Scene object as buildInstanced reads it: the optional custom shader
attribute descriptors and the material properties. -/
structure SceneObjM where
  customShaderAttrs : Option (List AttrDesc)
  attr : String → JsAttrValue

/-- Typed-array write: overwrite buf from position off with xs; the buffer
never grows and stores past its end are dropped (Float32Array semantics). -/
def writeFloats (buf : List ℚ) (off : ℕ) (xs : List ℚ) : List ℚ :=
  (List.range buf.length).map fun k =>
    if off ≤ k ∧ k < off + xs.length then xs.getD (k - off) 0 else buf.getD k 0

/-- The TypeError raised by the JS runtime when toArray is invoked on a value
that is neither a number nor a toArray-carrying object; it names neither the
object index nor the attribute. -/
def toArrayTypeError : String := "TypeError: attrValue.toArray is not a function"

/-- One store of the attribute fill loop of buildInstanced
(src/src/common/instancedHelpers.ts lines 31-38): a number is written as the
one-element array [value] at the slot offset, any other value has toArray
invoked on it - a vector writes its components, and a value without toArray
aborts with the generic TypeError. -/
def writeAttrValue (v : JsAttrValue) (buf : List ℚ) (off : ℕ) : Except String (List ℚ) :=
  match v with
  | .num x => .ok (writeFloats buf off [x])
  | .vec xs => .ok (writeFloats buf off xs)
  | .other => .error toArrayTypeError

/-- Attribute schema chosen by buildInstanced: the first instance's custom
shader attribute descriptors, else the default g-buffer schema. -/
def chosenDescs (defaultDescs : List AttrDesc) (objs : List SceneObjM) : List AttrDesc :=
  match objs with
  | [] => defaultDescs
  | o :: _ => o.customShaderAttrs.getD defaultDescs

/-- One iteration of the outer fill loop for object index i: for each declared
attribute, flatten objs[i].material[attr.name] into that attribute's array at
offset i * size. -/
def fillStep (descs : List AttrDesc) (o : SceneObjM) (i : ℕ) (arrays : List (List ℚ)) :
    Except String (List (List ℚ)) :=
  (descs.zip arrays).mapM fun da => writeAttrValue (o.attr da.1.name) da.2 (i * da.1.size)

/-- The outer fill loop of buildInstanced over the object list, threading the
per-attribute arrays and the object index. -/
def fillLoop (descs : List AttrDesc) :
    List SceneObjM → ℕ → List (List ℚ) → Except String (List (List ℚ))
  | [], _, arrays => .ok arrays
  | o :: rest, i, arrays =>
    match fillStep descs o i arrays with
    | .error e => .error e
    | .ok arrays2 => fillLoop descs rest (i + 1) arrays2

/-- Per-instance attribute fill of buildInstanced
(src/src/common/instancedHelpers.ts): allocate one zeroed Float32Array of
objs.length * size entries per declared attribute, then fill them instance by
instance; the result is the packed arrays, or the thrown TypeError. -/
def buildInstancedAttrs (defaultDescs : List AttrDesc) (objs : List SceneObjM) :
    Except String (List (List ℚ)) :=
  let descs := chosenDescs defaultDescs objs
  let init := descs.map fun d => (List.replicate (objs.length * d.size) (0 : ℚ))
  fillLoop descs objs 0 init

/-- The scalar-or-vector flattening shape the spec expects: a number fills a
size-1 slot, a vector fills a slot of exactly its component count. -/
def matchesShape (v : JsAttrValue) (size : ℕ) : Prop :=
  match v with
  | .num _ => size = 1
  | .vec comps => comps.length = size
  | .other => False

/-- Stored camera-follow index (src/src/theatreThree.ts,
connectCameraFollowToTheatre onValuesChange): Math.floor(Math.max(0,
Math.min(followIndex, count - 1))). -/
def storedFollowIndex (count : ℕ) (raw : ℚ) : ℤ :=
  Int.floor (max 0 (min raw ((count : ℚ) - 1)))

/-- Camera-follow index state after a sequence of timeline callbacks: the
field starts at 0 and each callback overwrites it with the clamped floor of
the delivered value. -/
def followIndexAfter (count : ℕ) (updates : List ℚ) : ℤ :=
  updates.foldl (fun _ raw => storedFollowIndex count raw) 0

/-- Events of one frame of the render loop. -/
inductive FrameEvent where
  | controlsUpdate
  | saveCamera
  | entityUpdate (i : ℕ)
  | cameraFollowUpdate
  | onRenderCallback (i : ℕ)
  | renderPass (i : ℕ)
  | savePreviousViewMatrix
  deriving DecidableEq

/-- Event order of one animate() frame (src/src/index.tsx): controls update,
camera autosave, gameState.update (which updates every entity in order,
running the full simulation tick), camera-follow update, the onRender
callbacks, pipeline.render (which executes the render passes in order), then
the previous-view-matrix save. -/
def animateFrame (numEntities numCallbacks numPasses : ℕ) : List FrameEvent :=
  [FrameEvent.controlsUpdate, FrameEvent.saveCamera]
    ++ (List.range numEntities).map FrameEvent.entityUpdate
    ++ [FrameEvent.cameraFollowUpdate]
    ++ (List.range numCallbacks).map FrameEvent.onRenderCallback
    ++ (List.range numPasses).map FrameEvent.renderPass
    ++ [FrameEvent.savePreviousViewMatrix]

/-- The passes of the pipeline, named after their classes. -/
inductive PipelinePass where
  | gBufferPass
  | ssaoPass
  | lightPass
  | iblPass
  | texturePass
  | procSkyPass
  | ssrPass
  | savePass
  | bokehPass
  | uiPass
  | uiCompositePass
  | bloomPass
  | glitchPass
  | toneMappingPass
  deriving DecidableEq

/-- Pass chain assembled by setupPipeline (src/src/pipeline.ts), in addPass
order. -/
def setupPipelinePasses : List PipelinePass :=
  [.gBufferPass, .ssaoPass, .lightPass, .iblPass, .texturePass, .procSkyPass,
   .ssrPass, .savePass, .bokehPass, .uiPass, .uiCompositePass, .bloomPass,
   .glitchPass, .toneMappingPass]

/-- Render target a pass can write. -/
inductive RenderTargetRef where
  | screen
  | writeBuffer
  deriving DecidableEq

/-- Target selected by ToneMappingPass.pass
(src/src/renderPasses/ToneMappingPass.ts): the null target (the presentable
surface) when renderToScreen is set, else the composer write buffer. -/
def toneMappingPassTarget (renderToScreen : Bool) : RenderTargetRef :=
  if renderToScreen then .screen else .writeBuffer

/-- Modelled from the spec: the pass dispatch (the repository RenderPass base
class and the three.js EffectComposer, neither under src/) runs the chain in
order and marks a pass render-to-screen exactly when no later pass of the
chain is enabled, so the terminal pass writes to the presentable surface. -/
def composerRenderToScreen (enabled : PipelinePass → Bool) (passes : List PipelinePass)
    (i : ℕ) : Bool :=
  (passes.drop (i + 1)).all fun p => !enabled p

/- Flocking simulation (src/src/arctic/lightEntities.ts), embedded over the
   real numbers. -/

/-- A THREE.Vector3. -/
structure Vec3 where
  x : ℝ
  y : ℝ
  z : ℝ

noncomputable section

/-- Vector addition (THREE.Vector3.add). -/
def Vec3.add (u v : Vec3) : Vec3 := ⟨u.x + v.x, u.y + v.y, u.z + v.z⟩

/-- Vector difference (THREE.Vector3.subVectors / sub). -/
def Vec3.sub (u v : Vec3) : Vec3 := ⟨u.x - v.x, u.y - v.y, u.z - v.z⟩

/-- Scalar multiple (THREE.Vector3.multiplyScalar). -/
def Vec3.multiplyScalar (v : Vec3) (s : ℝ) : Vec3 := ⟨v.x * s, v.y * s, v.z * s⟩

/-- THREE.Vector3.divideScalar is multiplication by the reciprocal. -/
def Vec3.divideScalar (v : Vec3) (s : ℝ) : Vec3 := v.multiplyScalar (1 / s)

/-- THREE.Vector3.addScaledVector. -/
def Vec3.addScaledVector (u v : Vec3) (s : ℝ) : Vec3 := u.add (v.multiplyScalar s)

/-- Dot product. -/
def Vec3.dot (u v : Vec3) : ℝ := u.x * v.x + u.y * v.y + u.z * v.z

/-- Squared length. -/
def Vec3.lengthSq (v : Vec3) : ℝ := v.x * v.x + v.y * v.y + v.z * v.z

/-- Euclidean length (THREE.Vector3.length). -/
def Vec3.length (v : Vec3) : ℝ := Real.sqrt v.lengthSq

/-- Euclidean distance (THREE.Vector3.distanceTo). -/
def Vec3.distanceTo (u v : Vec3) : ℝ := (u.sub v).length

/-- THREE.Vector3.normalize divides by the length, or by 1 when the length is
zero (the length-or-1 guard), so the zero vector stays zero. -/
def Vec3.normalize (v : Vec3) : Vec3 :=
  v.divideScalar (if v.length = 0 then 1 else v.length)

/-- THREE.Vector3.clampLength(lo, hi): divide by the length (or 1 when zero)
and rescale by the length clamped to [lo, hi]. -/
def Vec3.clampLength (v : Vec3) (lo hi : ℝ) : Vec3 :=
  (v.divideScalar (if v.length = 0 then 1 else v.length)).multiplyScalar
    (max lo (min hi v.length))

/-- The zero vector. -/
def Vec3.zero : Vec3 := ⟨0, 0, 0⟩

/-- A THREE.Quaternion. -/
structure Quat where
  x : ℝ
  y : ℝ
  z : ℝ
  w : ℝ

/-- Quaternion length. -/
def Quat.length (q : Quat) : ℝ :=
  Real.sqrt (q.x * q.x + q.y * q.y + q.z * q.z + q.w * q.w)

/-- The identity quaternion. -/
def Quat.identity : Quat := ⟨0, 0, 0, 1⟩

/-- THREE.Quaternion.normalize: the zero quaternion becomes the identity, any
other is divided by its length. -/
def Quat.normalize (q : Quat) : Quat :=
  if q.length = 0 then Quat.identity
  else ⟨q.x * (1 / q.length), q.y * (1 / q.length), q.z * (1 / q.length), q.w * (1 / q.length)⟩

/-- Number.EPSILON of JS. -/
def NumberEPSILON : ℝ := 1 / 2 ^ 52

/-- THREE.Quaternion.setFromUnitVectors: the shortest-arc rotation taking
vFrom to vTo, with the antiparallel fallback branch, followed by
normalization. -/
def Quat.setFromUnitVectors (vFrom vTo : Vec3) : Quat :=
  let r := vFrom.dot vTo + 1
  if r < NumberEPSILON then
    (if |vFrom.x| > |vFrom.z| then Quat.normalize ⟨-vFrom.y, vFrom.x, 0, 0⟩
     else Quat.normalize ⟨0, -vFrom.z, vFrom.y, 0⟩)
  else
    Quat.normalize
      ⟨vFrom.y * vTo.z - vFrom.z * vTo.y,
       vFrom.z * vTo.x - vFrom.x * vTo.z,
       vFrom.x * vTo.y - vFrom.y * vTo.x,
       r⟩

/-- Constants of src/src/arctic/lightEntities.ts. -/
def BOID_COUNT : ℕ := 400

/-- Neighbor perception radius. -/
def PERCEPTION_RADIUS : ℝ := 40

/-- Separation radius. -/
def SEPARATION_RADIUS : ℝ := 15

/-- Speed clamp bound. -/
def MAX_SPEED : ℝ := 3

/-- Steering force clamp bound. -/
def MAX_FORCE : ℝ := 0.05

/-- Separation steering weight. -/
def SEPARATION_WEIGHT : ℝ := 2.5

/-- Alignment steering weight. -/
def ALIGNMENT_WEIGHT : ℝ := 1.0

/-- Cohesion steering weight. -/
def COHESION_WEIGHT : ℝ := 1.0

/-- Center pull weight. -/
def CENTER_WEIGHT : ℝ := 0.0005

/-- Target flight height. -/
def TARGET_HEIGHT : ℝ := 5

/-- Height steering weight. -/
def HEIGHT_WEIGHT : ℝ := 0.5

/-- The fixed reference forward axis (entity.FORWARD). -/
def FORWARD : Vec3 := ⟨0, 1, 0⟩

/-- One flocking agent: the point-light position, its userData velocity, and
the companion object's quaternion. -/
structure Agent where
  pos : Vec3
  vel : Vec3
  quat : Quat

/-- Accumulators of the phase-1 inner neighbor loop. -/
structure ScanAcc where
  separation : Vec3
  alignment : Vec3
  cohesion : Vec3
  separationCount : ℕ
  perceptionCount : ℕ

/-- Initial (zeroed) accumulators. -/
def ScanAcc.init : ScanAcc := ⟨Vec3.zero, Vec3.zero, Vec3.zero, 0, 0⟩

/-- One iteration of the phase-1 inner loop (lightEntities.ts lines 118-140):
skip j = i; within PERCEPTION_RADIUS accumulate the neighbor velocity
(alignment) and position (cohesion); additionally within SEPARATION_RADIUS and
beyond the 0.001 epsilon guard, accumulate the inverse-square-weighted
repulsion. -/
def scanStep {n : ℕ} (snap : Fin n → Agent) (i : Fin n) (acc : ScanAcc) (j : Fin n) :
    ScanAcc :=
  if j = i then acc
  else
    let dist := (snap i).pos.distanceTo (snap j).pos
    if dist < PERCEPTION_RADIUS then
      let acc1 : ScanAcc :=
        { acc with
          alignment := acc.alignment.add (snap j).vel
          cohesion := acc.cohesion.add (snap j).pos
          perceptionCount := acc.perceptionCount + 1 }
      if dist < SEPARATION_RADIUS ∧ dist > 0.001 then
        { acc1 with
          separation :=
            acc1.separation.add (((snap i).pos.sub (snap j).pos).divideScalar (dist * dist))
          separationCount := acc1.separationCount + 1 }
      else acc1
    else acc

/-- The phase-1 inner neighbor loop for agent i, visiting the other agents in
the given order (the source iterates j = 0, 1, ..., n-1). -/
def neighborScan {n : ℕ} (snap : Fin n → Agent) (i : Fin n) (order : List (Fin n)) :
    ScanAcc :=
  order.foldl (scanStep snap i) ScanAcc.init

/-- Steering toward a desired direction (the repeated pattern of lines
146-150, 153-158, 162-166, 174-179): normalize the desired vector, scale to
MAX_SPEED, subtract the current velocity and clamp to MAX_FORCE. -/
def steerForce (desired vel : Vec3) : Vec3 :=
  ((desired.normalize.multiplyScalar MAX_SPEED).sub vel).clampLength 0 MAX_FORCE

/-- Alignment plus cohesion contribution (lines 145-160): applied only when
the perception counter is positive. -/
def alignCohesionComponent {n : ℕ} (snap : Fin n → Agent) (i : Fin n)
    (s : ScanAcc) : Vec3 :=
  if s.perceptionCount > 0 then
    ((steerForce (s.alignment.divideScalar s.perceptionCount) (snap i).vel).multiplyScalar
        ALIGNMENT_WEIGHT).add
      ((steerForce ((s.cohesion.divideScalar s.perceptionCount).sub (snap i).pos)
          (snap i).vel).multiplyScalar COHESION_WEIGHT)
  else Vec3.zero

/-- Separation contribution (lines 162-168): applied only when the separation
counter is positive. -/
def separationComponent {n : ℕ} (snap : Fin n → Agent) (i : Fin n) (s : ScanAcc) : Vec3 :=
  if s.separationCount > 0 then
    (steerForce (s.separation.divideScalar s.separationCount) (snap i).vel).multiplyScalar
      SEPARATION_WEIGHT
  else Vec3.zero

/-- Center pull contribution (lines 170-172). -/
def centerComponent (center : Vec3) (pos : Vec3) : Vec3 :=
  (center.sub pos).multiplyScalar CENTER_WEIGHT

/-- Height steering contribution (lines 174-180). -/
def heightComponent {n : ℕ} (snap : Fin n → Agent) (i : Fin n) : Vec3 :=
  (steerForce ⟨0, TARGET_HEIGHT - (snap i).pos.y, 0⟩ (snap i).vel).multiplyScalar
    HEIGHT_WEIGHT

/-- Phase-1 acceleration of agent i (lightEntities.ts lines 106-186): the
neighbor scan over the frozen snapshot, the weighted steering components, and
the per-axis jitter (rand i k is the Math.random() draw for axis k of agent
i's jitter). -/
def phase1Acc {n : ℕ} (center : Vec3) (snap : Fin n → Agent)
    (rand : Fin n → Fin 3 → ℝ) (order : List (Fin n)) (i : Fin n) : Vec3 :=
  let s := neighborScan snap i order
  let acc :=
    ((((alignCohesionComponent snap i s).add (separationComponent snap i s)).add
        (centerComponent center (snap i).pos)).add (heightComponent snap i))
  ⟨acc.x + (rand i 0 - 0.5) * 0.01,
   acc.y + (rand i 1 - 0.5) * 0.01,
   acc.z + (rand i 2 - 0.5) * 0.01⟩

/-- Phase-2 integration for one agent (lightEntities.ts lines 189-214): apply
the acceleration, clamp the speed to MAX_SPEED, integrate the position, and
rotate the companion object toward the velocity direction when the speed
exceeds the 0.01 guard (otherwise the quaternion is left as it was). -/
def integrateAgent (a : Agent) (acc : Vec3) (dt : ℝ) : Agent :=
  let vel := a.vel.addScaledVector acc dt
  let vel2 := if vel.length > MAX_SPEED then vel.normalize.multiplyScalar MAX_SPEED else vel
  let pos := a.pos.addScaledVector vel2 dt
  let speed := vel2.length
  let quat :=
    if speed > 0.01 then Quat.setFromUnitVectors FORWARD (vel2.divideScalar speed)
    else a.quat
  ⟨pos, vel2, quat⟩

/-- The transform written into the companion mesh instance buffer for one
agent (lines 205-217): MATRIX.compose(object.position, object.quaternion,
object.scale) with the fixed (10, 10, 10) scale. -/
structure PublishedTransform where
  position : Vec3
  quaternion : Quat
  scale : Vec3

/-- Publish step for one integrated agent. -/
def publishTransform (a : Agent) : PublishedTransform :=
  ⟨a.pos, a.quat, ⟨10, 10, 10⟩⟩

/-- One full update(deltaTime) tick: phase 1 computes every acceleration from
the frozen snapshot, phase 2 integrates every agent. -/
def flockUpdate {n : ℕ} (center : Vec3) (snap : Fin n → Agent)
    (rand : Fin n → Fin 3 → ℝ) (dt : ℝ) : Fin n → Agent :=
  fun i => integrateAgent (snap i) (phase1Acc center snap rand (List.finRange n) i) dt

/-- Agent construction (lightEntities.ts lines 38-65): position components
from three Math.random() draws, velocity components centered draws, identity
object quaternion. -/
def initAgent (rp rv : Fin 3 → ℝ) : Agent :=
  { pos := ⟨rp 0 * 200 + 200, rp 1 * 10 + 1, rp 2 * 200 + 200⟩
    vel := ⟨rv 0 - 0.5, rv 1 - 0.5, rv 2 - 0.5⟩
    quat := Quat.identity }

/-- States of the agent pool reachable from construction by any sequence of
update calls, with any deltaTime, any externally set center and any
Math.random() jitter draws in [0, 1). -/
inductive Reachable (n : ℕ) : (Fin n → Agent) → Prop where
  | init (randP randV : Fin n → Fin 3 → ℝ)
      (hv : ∀ i k, 0 ≤ randV i k ∧ randV i k < 1) :
      Reachable n (fun i => initAgent (randP i) (randV i))
  | step (snap : Fin n → Agent) (center : Vec3) (rand : Fin n → Fin 3 → ℝ) (dt : ℝ) :
      Reachable n snap → Reachable n (flockUpdate center snap rand dt)

end

/- Concrete stores, scenarios and accumulator algebra used by the theorems
   below. -/

/-- A localStorage with no entries. -/
def emptyStore : String → Option String := fun _ => none

/-- A decode function that only accepts the empty string (as atob does,
yielding no bytes). -/
def trivialDecode : String → Option (List ℕ) := fun s => if s = "" then some [] else none

noncomputable section

/-- Fieldwise combination of two scan accumulators. -/
def ScanAcc.append (s t : ScanAcc) : ScanAcc :=
  ⟨s.separation.add t.separation, s.alignment.add t.alignment, s.cohesion.add t.cohesion,
   s.separationCount + t.separationCount, s.perceptionCount + t.perceptionCount⟩

/-- The default global attractor point (entity.center). -/
def centerC : Vec3 := ⟨200, 5, 200⟩

/-- An agent resting exactly at the attractor point at the target height. -/
def agentAtCenter : Agent := ⟨centerC, Vec3.zero, Quat.identity⟩

/-- A snapshot with the whole pool resting at the attractor point. -/
def snapAllCenter : Fin BOID_COUNT → Agent := fun _ => agentAtCenter

/-- A two-agent pool with given positions and velocities. -/
def twoAgentSnap (pa va pb vb : Vec3) : Fin 2 → Agent := fun j =>
  if j = 0 then { pos := pa, vel := va, quat := Quat.identity }
  else { pos := pb, vel := vb, quat := Quat.identity }

/-- Two agents one unit apart, the first one moving at full speed directly
away from the second. -/
def ceSnapC3 : Fin 2 → Agent := twoAgentSnap ⟨0, 0, 0⟩ ⟨-3, 0, 0⟩ ⟨1, 0, 0⟩ Vec3.zero

/-- The separation force component phase 1 computes for the first of the two
agents above. -/
def ceSepComp : Vec3 :=
  separationComponent ceSnapC3 0 (neighborScan ceSnapC3 0 (List.finRange 2))

/-- An agent at rest whose companion object was rotated by an earlier tick
(quaternion 180 degrees about z). -/
def stillTurnedAgent : Agent := ⟨Vec3.zero, Vec3.zero, ⟨0, 0, 1, 0⟩⟩

/-- An agent at rest that never rotated. -/
def restingAgent : Agent := ⟨Vec3.zero, Vec3.zero, Quat.identity⟩

end

/- Theorems. -/

/-- C4: for every pixel, the UI composite pass computes exactly
output = mix(baseColor, black, clamp(blurredAlpha, 0, 0.999)), where
blurredAlpha is the 3x3 box-blur average (the nine neighboring texels summed
and divided by 9) of the UI buffer alpha channel and baseColor is the main
color buffer value at the pixel. -/
theorem uiComposite_matches_spec (color : Vec4Q) (uiTexel : ℤ → ℤ → Vec4Q) :
    uiCompositeFrag color uiTexel = uiCompositeSpec color uiTexel := by
  unfold uiCompositeFrag uiCompositeSpec
  simp only [blurOffsets, List.foldl_cons, List.foldl_nil, Vec4Q.add, Vec4Q.divScalar,
    glClamp, glMix, Vec4Q.mk.injEq, and_true]
  ring_nf
  simp

/-- C5: generateBrdfLUT trusts the cache exactly when an entry exists under
the versioned key and decodes to exactly BRDF_LUT_SIZE * BRDF_LUT_SIZE * 4
bytes; every absent, empty, undecodable or wrong-length entry silently falls
back to recomputation (the lookup is a total function, never an error). -/
theorem generateBrdfLUT_cached_iff (canUse : Bool) (getItem : String → Option String)
    (decode : String → Option (List ℕ)) (hempty : decode "" = some []) :
    (∃ bytes, generateBrdfLUT canUse getItem decode = .cached bytes) ↔
      canUse = true ∧ ∃ s bytes, getItem BRDF_LUT_CACHE_KEY = some s ∧
        decode s = some bytes ∧ bytes.length = BRDF_LUT_SIZE * BRDF_LUT_SIZE * 4 := by
  unfold generateBrdfLUT loadBrdfLUTFromCache
  cases canUse with
  | false => simp
  | true =>
    simp only [Bool.not_true, Bool.false_eq_true, if_false, true_and]
    rcases hgi : getItem BRDF_LUT_CACHE_KEY with _ | s
    · simp
    · by_cases hse : s = ""
      · subst hse
        simp only [if_pos rfl]
        constructor
        · rintro ⟨bytes, h⟩
          cases h
        · rintro ⟨s2, bytes, hs2, hd, hlen⟩
          cases hs2
          rw [hempty] at hd
          cases hd
          simp [BRDF_LUT_SIZE] at hlen
      · rcases hd : decode s with _ | bytes
        · simp [hse, hd]
        · by_cases hlen : bytes.length = BRDF_LUT_SIZE * BRDF_LUT_SIZE * 4
          · simp [hse, hd, hlen]
          · simp [hse, hd, hlen]

/-- Witness for C5 at a concrete empty store. -/
theorem generateBrdfLUT_cached_iff_witness :
    (∃ bytes, generateBrdfLUT true emptyStore trivialDecode = .cached bytes) ↔
      true = true ∧ ∃ s bytes, emptyStore BRDF_LUT_CACHE_KEY = some s ∧
        trivialDecode s = some bytes ∧ bytes.length = BRDF_LUT_SIZE * BRDF_LUT_SIZE * 4 :=
  generateBrdfLUT_cached_iff true emptyStore trivialDecode (by simp [trivialDecode])

/-- C10: the stored camera-follow index is floor(clamp(followIndex, 0,
count-1)); after any sequence of timeline callbacks with arbitrary rational
values, the stored index is an integer in [0, count - 1], so the accessors
are only ever called with valid indices. -/
theorem followIndex_always_valid (count : ℕ) (hc : 1 ≤ count) (updates : List ℚ) :
    0 ≤ followIndexAfter count updates ∧ followIndexAfter count updates ≤ (count : ℤ) - 1 := by
  have hstep : ∀ raw : ℚ,
      0 ≤ storedFollowIndex count raw ∧ storedFollowIndex count raw ≤ (count : ℤ) - 1 := by
    intro raw
    unfold storedFollowIndex
    constructor
    · exact Int.le_floor.mpr (by exact_mod_cast le_max_left 0 _)
    · have hle : max 0 (min raw ((count : ℚ) - 1)) ≤ (count : ℚ) - 1 := by
        apply max_le
        · have : (1 : ℚ) ≤ (count : ℚ) := by exact_mod_cast hc
          linarith
        · exact min_le_right _ _
      calc Int.floor (max 0 (min raw ((count : ℚ) - 1)))
          ≤ Int.floor ((count : ℚ) - 1) := Int.floor_le_floor hle
        _ = (count : ℤ) - 1 := by
            rw [show ((count : ℚ) - 1) = (((count : ℤ) - 1 : ℤ) : ℚ) by push_cast; ring]
            exact Int.floor_intCast _
  have hgen : ∀ (l : List ℚ) (b : ℤ), (0 ≤ b ∧ b ≤ (count : ℤ) - 1) →
      0 ≤ l.foldl (fun _ raw => storedFollowIndex count raw) b ∧
      l.foldl (fun _ raw => storedFollowIndex count raw) b ≤ (count : ℤ) - 1 := by
    intro l
    induction l with
    | nil => intro b hb; exact hb
    | cons u rest ih =>
      intro b _
      exact ih (storedFollowIndex count u) (hstep u)
  exact hgen updates 0 ⟨le_refl 0, by omega⟩

/-- Witness for C10 with the 400-agent pool and a fractional timeline value. -/
theorem followIndex_always_valid_witness :
    0 ≤ followIndexAfter 400 [27 / 10] ∧ followIndexAfter 400 [27 / 10] ≤ (400 : ℤ) - 1 :=
  followIndex_always_valid 400 (by norm_num) [27 / 10]

/-- C9: in the pipeline built by setupPipeline the tone-mapping pass is the
last pass of the chain, and whenever it executes (it is enabled) the composer
marks it render-to-screen, so it writes to the presentable surface and not to
an intermediate target. -/
theorem toneMapping_terminal_and_to_screen :
    setupPipelinePasses.getLast? = some PipelinePass.toneMappingPass ∧
    ∀ enabled : PipelinePass → Bool, enabled PipelinePass.toneMappingPass = true →
      toneMappingPassTarget
          (composerRenderToScreen enabled setupPipelinePasses (setupPipelinePasses.length - 1)) =
        RenderTargetRef.screen := by
  constructor
  · rfl
  · intro enabled _
    rfl

/-- Witness for C9 with every pass enabled. -/
theorem toneMapping_terminal_and_to_screen_witness :
    toneMappingPassTarget
        (composerRenderToScreen (fun _ => true) setupPipelinePasses
          (setupPipelinePasses.length - 1)) =
      RenderTargetRef.screen :=
  toneMapping_terminal_and_to_screen.2 (fun _ => true) rfl

/-- Splitting of the frame schedule before the camera-follow update. -/
theorem animateFrame_split_sim (nE nC nP : ℕ) :
    animateFrame nE nC nP =
      ([FrameEvent.controlsUpdate, FrameEvent.saveCamera] ++
        (List.range nE).map FrameEvent.entityUpdate) ++
      ([FrameEvent.cameraFollowUpdate] ++
        ((List.range nC).map FrameEvent.onRenderCallback ++
          ((List.range nP).map FrameEvent.renderPass ++
            [FrameEvent.savePreviousViewMatrix]))) := by
  simp [animateFrame, List.append_assoc]

/-- Splitting of the frame schedule before the render passes. -/
theorem animateFrame_split_render (nE nC nP : ℕ) :
    animateFrame nE nC nP =
      ((([FrameEvent.controlsUpdate, FrameEvent.saveCamera] ++
          (List.range nE).map FrameEvent.entityUpdate) ++
        [FrameEvent.cameraFollowUpdate]) ++
        (List.range nC).map FrameEvent.onRenderCallback) ++
      ((List.range nP).map FrameEvent.renderPass ++
        [FrameEvent.savePreviousViewMatrix]) := by
  simp [animateFrame, List.append_assoc]

/-- An entity update can only occur among the first 2 + nE frame events. -/
theorem entityUpdate_idx_lt {nE nC nP i a : ℕ}
    (h : (animateFrame nE nC nP)[i]? = some (FrameEvent.entityUpdate a)) : i < 2 + nE := by
  by_contra hge
  push_neg at hge
  rw [animateFrame_split_sim] at h
  rw [List.getElem?_append_right (by simp; omega)] at h
  have hm := List.getElem?_mem h
  simp at hm

/-- A render pass can only occur after the first 3 + nE + nC frame events. -/
theorem renderPass_idx_ge {nE nC nP j b : ℕ}
    (h : (animateFrame nE nC nP)[j]? = some (FrameEvent.renderPass b)) : 3 + nE + nC ≤ j := by
  by_contra hlt
  push_neg at hlt
  rw [animateFrame_split_render] at h
  rw [List.getElem?_append] at h
  rw [if_pos (by simp; omega)] at h
  have hm := List.getElem?_mem h
  simp at hm

/-- C7: within every frame, every entity update of the simulation tick occurs
strictly before every render pass of the pipeline, so the pass chain only
ever observes the fully updated instance buffers of the current frame. -/
theorem simulation_tick_before_render_passes (nE nC nP i j a b : ℕ)
    (hi : (animateFrame nE nC nP)[i]? = some (FrameEvent.entityUpdate a))
    (hj : (animateFrame nE nC nP)[j]? = some (FrameEvent.renderPass b)) : i < j := by
  have h1 := entityUpdate_idx_lt hi
  have h2 := renderPass_idx_ge hj
  omega

/-- Witness for C7 on a one-entity, one-pass frame. -/
theorem simulation_tick_before_render_passes_witness : (2 : ℕ) < 4 :=
  simulation_tick_before_render_passes 1 0 1 2 4 0 0 (by rfl) (by rfl)

/-- A single attribute store fails exactly on a value with no toArray. -/
theorem writeAttrValue_error_iff (v : JsAttrValue) (buf : List ℚ) (off : ℕ) :
    (∃ e, writeAttrValue v buf off = .error e) ↔ v = .other := by
  cases v <;> simp [writeAttrValue]

/-- The only error a single attribute store can produce is the generic
TypeError. -/
theorem writeAttrValue_error_msg {v : JsAttrValue} {buf : List ℚ} {off : ℕ} {e : String}
    (h : writeAttrValue v buf off = .error e) : e = toArrayTypeError := by
  cases v <;> simp [writeAttrValue] at h
  exact h.symm

/-- A mapM over Except fails exactly when some element fails. -/
theorem exceptMapM_error_iff {α β : Type} (f : α → Except String β) (l : List α) :
    (∃ e, l.mapM f = .error e) ↔ ∃ x ∈ l, ∃ e, f x = .error e := by
  induction l with
  | nil =>
    constructor
    · rintro ⟨e, h⟩
      cases h
    · rintro ⟨x, hx, _⟩
      cases hx
  | cons x xs ih =>
    rw [List.mapM_cons]
    cases hfx : f x with
    | error e =>
      constructor
      · intro _
        exact ⟨x, List.mem_cons_self x xs, e, hfx⟩
      · intro _
        exact ⟨e, rfl⟩
    | ok y =>
      cases hxs : xs.mapM f with
      | error e =>
        constructor
        · intro _
          rcases ih.mp ⟨e, hxs⟩ with ⟨z, hz, e2, hfz⟩
          exact ⟨z, List.mem_cons_of_mem x hz, e2, hfz⟩
        · intro _
          exact ⟨e, rfl⟩
      | ok ys =>
        constructor
        · rintro ⟨e, h⟩
          have h2 : (Except.ok (y :: ys) : Except String (List β)) = Except.error e := h
          cases h2
        · rintro ⟨z, hz, e2, hfz⟩
          rcases List.mem_cons.mp hz with hz | hz
          · rw [hz] at hfz
            rw [hfx] at hfz
            cases hfz
          · rcases ih.mpr ⟨z, hz, e2, hfz⟩ with ⟨e3, h3⟩
            rw [h3] at hxs
            cases hxs

/-- Every error a mapM of attribute stores produces is the generic
TypeError. -/
theorem exceptMapM_error_msg {α β : Type} (f : α → Except String β)
    (hf : ∀ x e, f x = .error e → e = toArrayTypeError) :
    ∀ (l : List α) (e : String), l.mapM f = .error e → e = toArrayTypeError := by
  intro l
  induction l with
  | nil =>
    intro e h
    cases h
  | cons x xs ih =>
    intro e h
    rw [List.mapM_cons] at h
    cases hfx : f x with
    | error e2 =>
      rw [hfx] at h
      have h2 : (Except.error e2 : Except String (List β)) = Except.error e := h
      cases h2
      exact hf x e hfx
    | ok y =>
      rw [hfx] at h
      cases hxs : xs.mapM f with
      | error e3 =>
        rw [hxs] at h
        have h2 : (Except.error e3 : Except String (List β)) = Except.error e := h
        cases h2
        exact ih e hxs
      | ok ys =>
        rw [hxs] at h
        have h2 : (Except.ok (y :: ys) : Except String (List β)) = Except.error e := h
        cases h2

/-- A successful mapM over Except preserves the length. -/
theorem exceptMapM_ok_length {α β : Type} (f : α → Except String β) :
    ∀ (l : List α) (ys : List β), l.mapM f = .ok ys → ys.length = l.length := by
  intro l
  induction l with
  | nil =>
    intro ys h
    have h2 : (Except.ok ([] : List β) : Except String (List β)) = Except.ok ys := h
    cases h2
    rfl
  | cons x xs ih =>
    intro ys h
    rw [List.mapM_cons] at h
    cases hfx : f x with
    | error e =>
      rw [hfx] at h
      have h2 : (Except.error e : Except String (List β)) = Except.ok ys := h
      cases h2
    | ok y =>
      rw [hfx] at h
      cases hxs : xs.mapM f with
      | error e =>
        rw [hxs] at h
        have h2 : (Except.error e : Except String (List β)) = Except.ok ys := h
        cases h2
      | ok zs =>
        rw [hxs] at h
        have h2 : (Except.ok (y :: zs) : Except String (List β)) = Except.ok ys := h
        cases h2
        simp [ih zs hxs]

/-- Every element of the first list of a length-matched zip is paired. -/
theorem exists_mem_zip_left {α β : Type} :
    ∀ {l1 : List α} {l2 : List β}, l1.length = l2.length →
      ∀ a ∈ l1, ∃ b, (a, b) ∈ l1.zip l2 := by
  intro l1
  induction l1 with
  | nil =>
    intro l2 _ a ha
    cases ha
  | cons x xs ih =>
    intro l2 hlen a ha
    cases l2 with
    | nil => simp at hlen
    | cons y ys =>
      rcases List.mem_cons.mp ha with h | h
      · exact ⟨y, by rw [h, List.zip_cons_cons]; exact List.mem_cons_self _ _⟩
      · rcases ih (by simpa using hlen) a h with ⟨b, hb⟩
        exact ⟨b, by rw [List.zip_cons_cons]; exact List.mem_cons_of_mem _ hb⟩

/-- One outer fill-loop iteration fails exactly when some declared attribute
value of the object has no toArray. -/
theorem fillStep_error_iff (descs : List AttrDesc) (o : SceneObjM) (i : ℕ)
    (arrays : List (List ℚ)) (hlen : arrays.length = descs.length) :
    (∃ e, fillStep descs o i arrays = .error e) ↔
      ∃ d ∈ descs, o.attr d.name = JsAttrValue.other := by
  unfold fillStep
  rw [exceptMapM_error_iff]
  constructor
  · rintro ⟨da, hda, e, he⟩
    refine ⟨da.1, (List.of_mem_zip hda).1, ?_⟩
    exact (writeAttrValue_error_iff _ _ _).mp ⟨e, he⟩
  · rintro ⟨d, hd, hother⟩
    rcases exists_mem_zip_left hlen.symm d hd with ⟨arr, harr⟩
    refine ⟨(d, arr), harr, ?_⟩
    exact (writeAttrValue_error_iff _ _ _).mpr hother

/-- The fill loop fails exactly when some remaining object has a declared
attribute value with no toArray, and its only possible error is the generic
TypeError. -/
theorem fillLoop_error_characterization (descs : List AttrDesc) :
    ∀ (objsL : List SceneObjM) (i : ℕ) (arrays : List (List ℚ)),
      arrays.length = descs.length →
      ((∃ e, fillLoop descs objsL i arrays = .error e) ↔
        ∃ o ∈ objsL, ∃ d ∈ descs, o.attr d.name = JsAttrValue.other) ∧
      (∀ e, fillLoop descs objsL i arrays = .error e → e = toArrayTypeError) := by
  intro objsL
  induction objsL with
  | nil =>
    intro i arrays _
    constructor
    · constructor
      · rintro ⟨e, h⟩
        cases h
      · rintro ⟨o, ho, _⟩
        cases ho
    · intro e h
      cases h
  | cons o rest ih =>
    intro i arrays hlen
    have hsteplen : ∀ arrays2, fillStep descs o i arrays = .ok arrays2 →
        arrays2.length = descs.length := by
      intro arrays2 hstep
      have := exceptMapM_ok_length _ _ _ hstep
      rw [this, List.length_zip, hlen, Nat.min_self]
    constructor
    · constructor
      · rintro ⟨e, h⟩
        unfold fillLoop at h
        cases hstep : fillStep descs o i arrays with
        | error e2 =>
          rcases (fillStep_error_iff descs o i arrays hlen).mp ⟨e2, hstep⟩ with ⟨d, hd, hother⟩
          exact ⟨o, List.mem_cons_self o rest, d, hd, hother⟩
        | ok arrays2 =>
          rw [hstep] at h
          rcases ((ih (i + 1) arrays2 (hsteplen arrays2 hstep)).1).mp ⟨e, h⟩ with
            ⟨o2, ho2, d, hd, hother⟩
          exact ⟨o2, List.mem_cons_of_mem o ho2, d, hd, hother⟩
      · rintro ⟨o2, ho2, d, hd, hother⟩
        unfold fillLoop
        cases hstep : fillStep descs o i arrays with
        | error e2 => exact ⟨e2, rfl⟩
        | ok arrays2 =>
          rcases List.mem_cons.mp ho2 with h | h
          · exfalso
            rcases (fillStep_error_iff descs o i arrays hlen).mpr
              ⟨d, hd, by rw [← h]; exact hother⟩ with ⟨e, he⟩
            rw [he] at hstep
            cases hstep
          · exact ((ih (i + 1) arrays2 (hsteplen arrays2 hstep)).1).mpr ⟨o2, h, d, hd, hother⟩
    · intro e h
      unfold fillLoop at h
      cases hstep : fillStep descs o i arrays with
      | error e2 =>
        rw [hstep] at h
        have h2 : (Except.error e2 : Except String (List (List ℚ))) = Except.error e := h
        cases h2
        unfold fillStep at hstep
        exact exceptMapM_error_msg _ (fun x e3 h3 => writeAttrValue_error_msg h3) _ _ hstep
      | ok arrays2 =>
        rw [hstep] at h
        exact ((ih (i + 1) arrays2 (hsteplen arrays2 hstep)).2) e h

/-- C8 counterexample: an instance whose declared size-3 attribute carries a
scalar number is a shape mismatch, yet buildInstanced raises no diagnostic -
it silently packs the scalar into the first float of the slot and leaves the
rest zero. -/
theorem buildInstanced_no_shape_diagnostic :
    ¬ matchesShape (JsAttrValue.num 5) 3 ∧
    buildInstancedAttrs [⟨"color", 3⟩] [⟨none, fun _ => JsAttrValue.num 5⟩] =
      Except.ok [[5, 0, 0]] := by
  constructor
  · simp [matchesShape]
  · rfl

/-- C8 amended: buildInstanced aborts exactly when some declared attribute
value of some instance is neither a number nor a toArray-carrying object, and
then only with the generic TypeError naming neither object nor attribute; a
scalar-for-vector (or wrong-width vector) shape mismatch is flattened
silently with no diagnostic. -/
theorem buildInstancedAttrs_error_characterization (defaultDescs : List AttrDesc)
    (objs : List SceneObjM) :
    ((∃ e, buildInstancedAttrs defaultDescs objs = .error e) ↔
      ∃ o ∈ objs, ∃ d ∈ chosenDescs defaultDescs objs, o.attr d.name = JsAttrValue.other) ∧
    ∀ e, buildInstancedAttrs defaultDescs objs = .error e → e = toArrayTypeError := by
  have h := fillLoop_error_characterization (chosenDescs defaultDescs objs) objs 0
    ((chosenDescs defaultDescs objs).map fun d => List.replicate (objs.length * d.size) (0 : ℚ))
    (by simp)
  exact h

/-- Witness for the C8 amendment: a value with no toArray aborts the build. -/
theorem buildInstancedAttrs_error_characterization_witness :
    ∃ e, buildInstancedAttrs [⟨"intensity", 1⟩] [⟨none, fun _ => JsAttrValue.other⟩] =
      Except.error e :=
  (buildInstancedAttrs_error_characterization [⟨"intensity", 1⟩]
      [⟨none, fun _ => JsAttrValue.other⟩]).1.mpr
    ⟨⟨none, fun _ => JsAttrValue.other⟩, by simp, ⟨"intensity", 1⟩, by simp [chosenDescs], rfl⟩

/-- Square roots are monotone below a square. -/
theorem sqrt_le_of_le_sq {x c : ℝ} (hc : 0 ≤ c) (hx : x ≤ c ^ 2) : Real.sqrt x ≤ c := by
  calc Real.sqrt x ≤ Real.sqrt (c ^ 2) := Real.sqrt_le_sqrt hx
    _ = c := Real.sqrt_sq hc

/-- The squared length is nonnegative. -/
theorem Vec3.lengthSq_nonneg (v : Vec3) : 0 ≤ v.lengthSq := by
  unfold Vec3.lengthSq
  nlinarith [mul_self_nonneg v.x, mul_self_nonneg v.y, mul_self_nonneg v.z]

/-- Lengths are nonnegative. -/
theorem Vec3.length_nonneg (v : Vec3) : 0 ≤ v.length := Real.sqrt_nonneg _

/-- Length of a scalar multiple. -/
theorem Vec3.length_smul (v : Vec3) (c : ℝ) :
    (v.multiplyScalar c).length = |c| * v.length := by
  unfold Vec3.length Vec3.multiplyScalar Vec3.lengthSq
  have h : v.x * c * (v.x * c) + v.y * c * (v.y * c) + v.z * c * (v.z * c)
      = c ^ 2 * (v.x * v.x + v.y * v.y + v.z * v.z) := by ring
  rw [h, Real.sqrt_mul (sq_nonneg c), Real.sqrt_sq_eq_abs]

/-- Only the zero vector has zero length. -/
theorem Vec3.length_eq_zero_iff (v : Vec3) : v.length = 0 ↔ v = Vec3.zero := by
  unfold Vec3.length
  rw [Real.sqrt_eq_zero (Vec3.lengthSq_nonneg v)]
  unfold Vec3.lengthSq
  constructor
  · intro h
    have hx : v.x * v.x = 0 := by nlinarith [mul_self_nonneg v.x, mul_self_nonneg v.y, mul_self_nonneg v.z]
    have hy : v.y * v.y = 0 := by nlinarith [mul_self_nonneg v.x, mul_self_nonneg v.y, mul_self_nonneg v.z]
    have hz : v.z * v.z = 0 := by nlinarith [mul_self_nonneg v.x, mul_self_nonneg v.y, mul_self_nonneg v.z]
    cases v with
    | mk x y z =>
      simp only [Vec3.zero, Vec3.mk.injEq]
      exact ⟨mul_self_eq_zero.mp hx, mul_self_eq_zero.mp hy, mul_self_eq_zero.mp hz⟩
  · intro h
    rw [h]
    unfold Vec3.zero
    ring

/-- Scalar multiples compose. -/
theorem Vec3.smul_smul (v : Vec3) (a b : ℝ) :
    (v.multiplyScalar a).multiplyScalar b = v.multiplyScalar (a * b) := by
  unfold Vec3.multiplyScalar
  simp only [Vec3.mk.injEq]
  refine ⟨by ring, by ring, by ring⟩

/-- Dot with a scalar multiple on the left. -/
theorem Vec3.dot_smul_left (u v : Vec3) (c : ℝ) :
    (u.multiplyScalar c).dot v = c * (u.dot v) := by
  unfold Vec3.dot Vec3.multiplyScalar
  ring

/-- The dot of a vector with itself is its squared length. -/
theorem Vec3.dot_self (v : Vec3) : v.dot v = v.lengthSq := by
  unfold Vec3.dot Vec3.lengthSq
  ring

/-- The squared length is the square of the length. -/
theorem Vec3.sq_length (v : Vec3) : v.length ^ 2 = v.lengthSq :=
  Real.sq_sqrt (Vec3.lengthSq_nonneg v)

/-- Cauchy-Schwarz for the embedded vectors. -/
theorem Vec3.dot_le_length_mul (u v : Vec3) : u.dot v ≤ u.length * v.length := by
  have h1 : (u.dot v) ^ 2 ≤ u.lengthSq * v.lengthSq := by
    unfold Vec3.dot Vec3.lengthSq
    nlinarith [sq_nonneg (u.x * v.y - u.y * v.x), sq_nonneg (u.x * v.z - u.z * v.x),
      sq_nonneg (u.y * v.z - u.z * v.y)]
  calc u.dot v ≤ |u.dot v| := le_abs_self _
    _ = Real.sqrt ((u.dot v) ^ 2) := (Real.sqrt_sq_eq_abs _).symm
    _ ≤ Real.sqrt (u.lengthSq * v.lengthSq) := Real.sqrt_le_sqrt h1
    _ = u.length * v.length := by
        unfold Vec3.length
        rw [Real.sqrt_mul (Vec3.lengthSq_nonneg u)]

/-- The speed clamp of the integration step always lands at or below
MAX_SPEED, whatever the incoming velocity and acceleration. -/
theorem integrate_speed_le (a : Agent) (acc : Vec3) (dt : ℝ) :
    (integrateAgent a acc dt).vel.length ≤ MAX_SPEED := by
  have hv : (integrateAgent a acc dt).vel
      = if (a.vel.addScaledVector acc dt).length > MAX_SPEED
        then (a.vel.addScaledVector acc dt).normalize.multiplyScalar MAX_SPEED
        else a.vel.addScaledVector acc dt := rfl
  rw [hv]
  set v := a.vel.addScaledVector acc dt with hvdef
  by_cases h : v.length > MAX_SPEED
  · rw [if_pos h]
    have hpos : 0 < v.length := lt_trans (by norm_num [MAX_SPEED]) h
    have hne : ¬ v.length = 0 := ne_of_gt hpos
    unfold Vec3.normalize Vec3.divideScalar
    rw [if_neg hne, Vec3.smul_smul, Vec3.length_smul]
    rw [abs_of_pos (by rw [show MAX_SPEED = (3 : ℝ) from rfl]; positivity :
      (0:ℝ) < 1 / v.length * MAX_SPEED)]
    rw [show 1 / v.length * MAX_SPEED * v.length = MAX_SPEED * (v.length / v.length) by ring]
    rw [div_self hne]
    norm_num
  · rw [if_neg h]
    exact le_of_not_lt h

/-- C1: for every reachable state of the agent pool - after construction and
any sequence of update(deltaTime) calls with any inputs - every agent's
velocity magnitude is at most MAX_SPEED. -/
theorem flocking_speed_bounded {n : ℕ} (snap : Fin n → Agent) (h : Reachable n snap) :
    ∀ i, (snap i).vel.length ≤ MAX_SPEED := by
  induction h with
  | init randP randV hv =>
    intro i
    have h0 := hv i 0
    have h1 := hv i 1
    have h2 := hv i 2
    have hveq : ((fun j => initAgent (randP j) (randV j)) i).vel
        = ⟨randV i 0 - 0.5, randV i 1 - 0.5, randV i 2 - 0.5⟩ := rfl
    rw [hveq]
    unfold Vec3.length Vec3.lengthSq
    rw [show MAX_SPEED = (3 : ℝ) from rfl]
    apply sqrt_le_of_le_sq (by norm_num)
    nlinarith [h0.1, h0.2, h1.1, h1.2, h2.1, h2.2]
  | step snap center rand dt hr ih =>
    intro i
    exact integrate_speed_le _ _ _

/-- Witness for C1 at the freshly constructed pool with centered draws. -/
theorem flocking_speed_bounded_witness :
    ((fun _ : Fin BOID_COUNT => initAgent (fun _ => (1 : ℝ) / 2) (fun _ => (1 : ℝ) / 2))
        ⟨0, by norm_num [BOID_COUNT]⟩).vel.length ≤ MAX_SPEED :=
  @flocking_speed_bounded BOID_COUNT
    (fun _ => initAgent (fun _ => (1 : ℝ) / 2) (fun _ => (1 : ℝ) / 2))
    (@Reachable.init BOID_COUNT (fun _ _ => (1 : ℝ) / 2) (fun _ _ => (1 : ℝ) / 2)
      (fun _ _ => by norm_num))
    ⟨0, by norm_num [BOID_COUNT]⟩

/-- Adding the zero vector on the right is the identity. -/
theorem Vec3.add_zero_right (v : Vec3) : v.add Vec3.zero = v := by
  cases v
  simp [Vec3.add, Vec3.zero]

/-- Adding the zero vector on the left is the identity. -/
theorem Vec3.zero_add_left (v : Vec3) : Vec3.zero.add v = v := by
  cases v
  simp [Vec3.add, Vec3.zero]

/-- Scaling the zero vector gives the zero vector. -/
theorem Vec3.zero_smul (c : ℝ) : Vec3.zero.multiplyScalar c = Vec3.zero := by
  simp [Vec3.multiplyScalar, Vec3.zero]

/-- Scaling by one is the identity. -/
theorem Vec3.smul_one (v : Vec3) : v.multiplyScalar 1 = v := by
  cases v
  simp [Vec3.multiplyScalar]

/-- A vector minus itself is zero. -/
theorem Vec3.sub_self (v : Vec3) : v.sub v = Vec3.zero := by
  cases v
  simp [Vec3.sub, Vec3.zero]

/-- Subtracting the zero vector is the identity. -/
theorem Vec3.sub_zero_right (v : Vec3) : v.sub Vec3.zero = v := by
  cases v
  simp [Vec3.sub, Vec3.zero]

/-- Normalizing the zero vector yields the zero vector (the length-or-1
guard). -/
theorem Vec3.normalize_zero : Vec3.zero.normalize = Vec3.zero := by
  unfold Vec3.normalize Vec3.divideScalar
  rw [Vec3.zero_smul]

/-- Clamping the length of the zero vector yields the zero vector. -/
theorem Vec3.clampLength_zero (lo hi : ℝ) : Vec3.zero.clampLength lo hi = Vec3.zero := by
  unfold Vec3.clampLength Vec3.divideScalar
  rw [Vec3.zero_smul, Vec3.zero_smul]

/-- Steering with no desired direction and no velocity produces no force. -/
theorem steerForce_zero_zero : steerForce Vec3.zero Vec3.zero = Vec3.zero := by
  unfold steerForce
  rw [Vec3.normalize_zero, Vec3.zero_smul, Vec3.sub_zero_right, Vec3.clampLength_zero]

/-- The distance from a point to itself is zero. -/
theorem Vec3.distanceTo_self (v : Vec3) : v.distanceTo v = 0 := by
  unfold Vec3.distanceTo
  rw [Vec3.sub_self]
  unfold Vec3.length Vec3.lengthSq Vec3.zero
  norm_num

/-- One scan iteration decomposes into the incoming accumulator plus the
contribution of the visited agent. -/
theorem scanStep_append {n : ℕ} (snap : Fin n → Agent) (i : Fin n) (acc : ScanAcc)
    (j : Fin n) : scanStep snap i acc j = acc.append (scanStep snap i ScanAcc.init j) := by
  cases acc with
  | mk sep ali coh sc pc =>
    unfold scanStep ScanAcc.init ScanAcc.append
    dsimp only
    split_ifs with h1 h2 h3 <;> simp [Vec3.add, Vec3.zero]

/-- Scan contributions can be appended in either order. -/
theorem ScanAcc.append_right_comm (s t u : ScanAcc) :
    (s.append t).append u = (s.append u).append t := by
  cases s
  cases t
  cases u
  simp only [ScanAcc.append, Vec3.add, ScanAcc.mk.injEq, Vec3.mk.injEq]
  repeat' apply And.intro
  all_goals ring

/-- The phase-1 neighbor scan is invariant under permutation of the visit
order. -/
theorem neighborScan_perm {n : ℕ} (snap : Fin n → Agent) (i : Fin n)
    {order1 order2 : List (Fin n)} (hp : order1.Perm order2) :
    neighborScan snap i order1 = neighborScan snap i order2 := by
  unfold neighborScan
  haveI : RightCommutative (scanStep snap i) := ⟨fun b a1 a2 => by
    rw [scanStep_append snap i b a1, scanStep_append snap i (b.append _) a2,
      scanStep_append snap i b a2, scanStep_append snap i (b.append _) a1,
      ScanAcc.append_right_comm]⟩
  exact hp.foldl_eq _

/-- C2 amended: with the per-agent jitter draws held fixed, phase 1 is a
deterministic function of the frozen snapshot and is invariant under any
permutation of the neighbor-scan visit order; the claim as stated fails only
because each run draws fresh Math.random() jitter. -/
theorem phase1_perm_invariant {n : ℕ} (center : Vec3) (snap : Fin n → Agent)
    (rand : Fin n → Fin 3 → ℝ) (i : Fin n) (order1 order2 : List (Fin n))
    (hp : order1.Perm order2) :
    phase1Acc center snap rand order1 i = phase1Acc center snap rand order2 i := by
  unfold phase1Acc
  rw [neighborScan_perm snap i hp]

/-- Witness for the C2 amendment: swapping the two visits of a two-agent scan
leaves the acceleration unchanged. -/
theorem phase1_perm_invariant_witness :
    phase1Acc centerC (twoAgentSnap Vec3.zero Vec3.zero ⟨1, 0, 0⟩ Vec3.zero)
        (fun _ _ => 1 / 2) [0, 1] 0 =
      phase1Acc centerC (twoAgentSnap Vec3.zero Vec3.zero ⟨1, 0, 0⟩ Vec3.zero)
        (fun _ _ => 1 / 2) [1, 0] 0 :=
  phase1_perm_invariant centerC _ _ 0 [0, 1] [1, 0] (List.Perm.swap 1 0 [])

/-- Dividing the zero vector by any scalar gives the zero vector. -/
theorem Vec3.div_zero_vec (c : ℝ) : Vec3.zero.divideScalar c = Vec3.zero := by
  unfold Vec3.divideScalar
  exact Vec3.zero_smul _

/-- Dividing a scalar multiple by the same nonzero scalar recovers the
vector. -/
theorem Vec3.div_smul_cancel (v : Vec3) (c : ℝ) (hc : c ≠ 0) :
    (v.multiplyScalar c).divideScalar c = v := by
  unfold Vec3.divideScalar
  rw [Vec3.smul_smul]
  rw [show c * (1 / c) = 1 by field_simp]
  exact Vec3.smul_one v

/-- Folding the scan over a pool in which every agent rests at the same point
only counts perceived neighbors and accumulates their common position: the
separation guard (distance below the 0.001 epsilon) keeps every repulsion
term out. -/
theorem neighborScan_const_snap (n : ℕ) (p : Vec3) (q : Quat) (i : Fin n) :
    ∀ (order : List (Fin n)) (acc : ScanAcc),
      order.foldl (scanStep (fun _ => ⟨p, Vec3.zero, q⟩) i) acc =
        ⟨acc.separation, acc.alignment,
         acc.cohesion.add (p.multiplyScalar ((order.filter (fun j => j != i)).length)),
         acc.separationCount,
         acc.perceptionCount + (order.filter (fun j => j != i)).length⟩ := by
  intro order
  induction order with
  | nil =>
    intro acc
    cases acc
    simp [List.foldl_nil, Vec3.add, Vec3.multiplyScalar]
  | cons j rest ih =>
    intro acc
    rw [List.foldl_cons]
    by_cases hj : j = i
    · have hstep : scanStep (fun _ => (⟨p, Vec3.zero, q⟩ : Agent)) i acc j = acc := by
        unfold scanStep
        rw [if_pos hj]
      rw [hstep, ih acc]
      simp [List.filter_cons, hj]
    · have hstep : scanStep (fun _ => (⟨p, Vec3.zero, q⟩ : Agent)) i acc j
          = ⟨acc.separation, acc.alignment.add Vec3.zero, acc.cohesion.add p,
             acc.separationCount, acc.perceptionCount + 1⟩ := by
        unfold scanStep
        rw [if_neg hj]
        dsimp only
        rw [Vec3.distanceTo_self]
        rw [if_pos (by norm_num [PERCEPTION_RADIUS])]
        rw [if_neg (by norm_num [SEPARATION_RADIUS])]
      rw [hstep, ih]
      have hfil : ((j :: rest).filter (fun j2 => j2 != i))
          = j :: rest.filter (fun j2 => j2 != i) := by
        simp [List.filter_cons, hj]
      rw [hfil]
      simp only [List.length_cons]
      rw [Vec3.add_zero_right]
      simp only [ScanAcc.mk.injEq]
      refine ⟨trivial, trivial, ?_, trivial, by omega⟩
      simp only [Vec3.add, Vec3.multiplyScalar, Vec3.mk.injEq]
      refine ⟨?_, ?_, ?_⟩ <;> (push_cast; ring)

/-- Phase 1 over the pool resting at the attractor point reduces to the bare
jitter term: every steering component vanishes. -/
theorem phase1Acc_allCenter (rand : Fin BOID_COUNT → Fin 3 → ℝ)
    (order : List (Fin BOID_COUNT)) (i : Fin BOID_COUNT) :
    phase1Acc centerC snapAllCenter rand order i =
      ⟨(rand i 0 - 0.5) * 0.01, (rand i 1 - 0.5) * 0.01, (rand i 2 - 0.5) * 0.01⟩ := by
  have hvel : (snapAllCenter i).vel = Vec3.zero := rfl
  have hpos : (snapAllCenter i).pos = centerC := rfl
  have hscan : neighborScan snapAllCenter i order =
      ⟨Vec3.zero, Vec3.zero,
       Vec3.zero.add (centerC.multiplyScalar ((order.filter (fun j => j != i)).length)),
       0, 0 + (order.filter (fun j => j != i)).length⟩ :=
    neighborScan_const_snap BOID_COUNT centerC Quat.identity i order ScanAcc.init
  set m := (order.filter (fun j => j != i)).length with hmdef
  have hAC : alignCohesionComponent snapAllCenter i (neighborScan snapAllCenter i order)
      = Vec3.zero := by
    rw [hscan]
    unfold alignCohesionComponent
    dsimp only
    rcases Nat.eq_zero_or_pos m with hm0 | hmpos
    · rw [if_neg (by omega)]
    · rw [if_pos (by omega)]
      rw [hvel, hpos]
      rw [Vec3.div_zero_vec, steerForce_zero_zero]
      rw [Vec3.zero_add_left]
      rw [show ((0 + m : ℕ) : ℝ) = (m : ℝ) by push_cast; ring]
      rw [Vec3.div_smul_cancel centerC (m : ℝ)
        (Nat.cast_ne_zero.mpr (Nat.pos_iff_ne_zero.mp hmpos))]
      rw [Vec3.sub_self, steerForce_zero_zero]
      rw [Vec3.zero_smul, Vec3.zero_smul, Vec3.add_zero_right]
  have hSep : separationComponent snapAllCenter i (neighborScan snapAllCenter i order)
      = Vec3.zero := by
    rw [hscan]
    unfold separationComponent
    dsimp only
    rw [if_neg (by omega)]
  have hCen : centerComponent centerC (snapAllCenter i).pos = Vec3.zero := by
    rw [hpos]
    unfold centerComponent
    rw [Vec3.sub_self, Vec3.zero_smul]
  have hHei : heightComponent snapAllCenter i = Vec3.zero := by
    unfold heightComponent
    rw [hvel]
    rw [show (⟨0, TARGET_HEIGHT - (snapAllCenter i).pos.y, 0⟩ : Vec3) = Vec3.zero by
      rw [hpos]; unfold TARGET_HEIGHT centerC Vec3.zero; norm_num]
    rw [steerForce_zero_zero, Vec3.zero_smul]
  unfold phase1Acc
  dsimp only
  rw [hAC, hSep, hCen, hHei]
  rw [Vec3.zero_add_left, Vec3.zero_add_left, Vec3.zero_add_left]
  simp [Vec3.zero]

/-- C2 counterexample: from the identical frozen snapshot (the whole pool
resting at the attractor point) and the identical visit order, two runs of
phase 1 with different Math.random() jitter draws produce different
acceleration vectors, so phase 1 is not a deterministic function of the
snapshot alone. -/
theorem phase1_not_deterministic_across_runs :
    phase1Acc centerC snapAllCenter (fun _ _ => 1 / 2) (List.finRange BOID_COUNT)
        ⟨0, by norm_num [BOID_COUNT]⟩ ≠
      phase1Acc centerC snapAllCenter (fun _ _ => 3 / 4) (List.finRange BOID_COUNT)
        ⟨0, by norm_num [BOID_COUNT]⟩ := by
  rw [phase1Acc_allCenter, phase1Acc_allCenter]
  intro h
  have hx := congrArg Vec3.x h
  dsimp only at hx
  norm_num at hx

/-- Dot distributes over subtraction on the left. -/
theorem Vec3.dot_sub_left (a b c : Vec3) : (a.sub b).dot c = a.dot c - b.dot c := by
  unfold Vec3.dot Vec3.sub
  ring

/-- The zero vector is orthogonal to everything. -/
theorem Vec3.zero_dot (u : Vec3) : Vec3.zero.dot u = 0 := by
  unfold Vec3.dot Vec3.zero
  ring

/-- Dividing by one is the identity. -/
theorem Vec3.div_one (v : Vec3) : v.divideScalar 1 = v := by
  unfold Vec3.divideScalar
  rw [show (1 : ℝ) / 1 = 1 by norm_num]
  exact Vec3.smul_one v

/-- The zero vector has length zero. -/
theorem Vec3.zero_length : Vec3.zero.length = 0 := by
  unfold Vec3.length Vec3.lengthSq Vec3.zero
  norm_num

/-- clampLength to [0, hi] never exceeds hi. -/
theorem Vec3.clampLength_length_le (v : Vec3) (hi : ℝ) (hhi : 0 ≤ hi) :
    (v.clampLength 0 hi).length ≤ hi := by
  unfold Vec3.clampLength Vec3.divideScalar
  rw [Vec3.smul_smul, Vec3.length_smul]
  by_cases h : v.length = 0
  · rw [h, mul_zero]
    exact hhi
  · rw [if_neg h]
    have hpos : 0 < v.length := lt_of_le_of_ne (Vec3.length_nonneg v) (Ne.symm h)
    have hmaxnn : 0 ≤ max 0 (min hi v.length) := le_max_left 0 _
    rw [abs_of_nonneg (by positivity)]
    rw [show 1 / v.length * max 0 (min hi v.length) * v.length
        = max 0 (min hi v.length) * (v.length / v.length) by ring]
    rw [div_self h, mul_one]
    exact max_le hhi (min_le_left _ _)

/-- The two-agent neighbor scan: when the two agents are within the
separation radius and beyond the epsilon guard, agent 0 records agent 1 as
its single perceived and separating neighbor. -/
theorem neighborScan_two (pa va pb vb : Vec3)
    (h40 : pa.distanceTo pb < PERCEPTION_RADIUS)
    (hsep : pa.distanceTo pb < SEPARATION_RADIUS ∧ pa.distanceTo pb > 0.001) :
    neighborScan (twoAgentSnap pa va pb vb) 0 (List.finRange 2) =
      ⟨Vec3.zero.add ((pa.sub pb).divideScalar (pa.distanceTo pb * pa.distanceTo pb)),
       Vec3.zero.add vb, Vec3.zero.add pb, 0 + 1, 0 + 1⟩ := by
  have hs0 : twoAgentSnap pa va pb vb 0 = ⟨pa, va, Quat.identity⟩ := by
    unfold twoAgentSnap
    rw [if_pos rfl]
  have hs1 : twoAgentSnap pa va pb vb 1 = ⟨pb, vb, Quat.identity⟩ := by
    unfold twoAgentSnap
    rw [if_neg (by decide)]
  have hfr : (List.finRange 2 : List (Fin 2)) = [0, 1] := by decide
  unfold neighborScan
  rw [hfr, List.foldl_cons, List.foldl_cons, List.foldl_nil]
  have hstep0 : scanStep (twoAgentSnap pa va pb vb) 0 ScanAcc.init 0 = ScanAcc.init := by
    unfold scanStep
    rw [if_pos rfl]
  rw [hstep0]
  unfold scanStep
  rw [if_neg (by decide : ¬ (1 : Fin 2) = 0)]
  rw [hs0, hs1]
  dsimp only
  rw [if_pos h40, if_pos hsep]
  rfl

/-- C3 counterexample: two agents one unit apart (inside the separation
radius, beyond the epsilon guard) with the first moving at exactly MAX_SPEED
away from the second: its computed separation force component is the zero
vector, whose dot product with the away direction is 0, not positive. -/
theorem separation_dot_can_vanish :
    0.001 < Vec3.distanceTo ⟨0, 0, 0⟩ ⟨1, 0, 0⟩ ∧
    Vec3.distanceTo ⟨0, 0, 0⟩ ⟨1, 0, 0⟩ < SEPARATION_RADIUS ∧
    ¬ (0 < ceSepComp.dot (Vec3.sub ⟨0, 0, 0⟩ ⟨1, 0, 0⟩)) := by
  have hd : Vec3.distanceTo ⟨0, 0, 0⟩ ⟨1, 0, 0⟩ = 1 := by
    unfold Vec3.distanceTo Vec3.sub Vec3.length Vec3.lengthSq
    norm_num
  refine ⟨by rw [hd]; norm_num, by rw [hd]; norm_num [SEPARATION_RADIUS], ?_⟩
  unfold ceSepComp ceSnapC3
  rw [neighborScan_two _ _ _ _ (by rw [hd]; norm_num [PERCEPTION_RADIUS])
    ⟨by rw [hd]; norm_num [SEPARATION_RADIUS], by rw [hd]; norm_num⟩]
  unfold separationComponent
  dsimp only
  rw [if_pos (by omega)]
  have hvel0 : twoAgentSnap ⟨0, 0, 0⟩ ⟨-3, 0, 0⟩ ⟨1, 0, 0⟩ Vec3.zero 0
      = ⟨⟨0, 0, 0⟩, ⟨-3, 0, 0⟩, Quat.identity⟩ := by
    unfold twoAgentSnap
    rw [if_pos rfl]
  rw [hvel0, hd]
  dsimp only
  have hsep : Vec3.zero.add ((Vec3.sub ⟨0, 0, 0⟩ ⟨1, 0, 0⟩).divideScalar (1 * 1))
      = (⟨-1, 0, 0⟩ : Vec3) := by
    unfold Vec3.sub Vec3.divideScalar Vec3.multiplyScalar Vec3.add Vec3.zero
    norm_num
  rw [hsep]
  rw [show (((0 : ℕ) + 1 : ℕ) : ℝ) = 1 by norm_num]
  rw [Vec3.div_one]
  unfold steerForce
  have hlen : (⟨-1, 0, 0⟩ : Vec3).length = 1 := by
    unfold Vec3.length Vec3.lengthSq
    norm_num
  unfold Vec3.normalize
  rw [if_neg (by rw [hlen]; norm_num), hlen, Vec3.div_one]
  have hm3 : (⟨-1, 0, 0⟩ : Vec3).multiplyScalar MAX_SPEED = ⟨-3, 0, 0⟩ := by
    unfold Vec3.multiplyScalar MAX_SPEED
    norm_num
  rw [hm3, Vec3.sub_self, Vec3.clampLength_zero, Vec3.zero_smul, Vec3.zero_dot]
  exact lt_irrefl 0

/-- C3 amended: for two agents placed closer than separationRadius (and
farther than the 0.001 epsilon guard), provided the agent's speed is strictly
below MAX_SPEED, the separation force component computed by one tick points
from the agent away from the other (strictly positive dot with the away
direction), and its magnitude never exceeds MAX_FORCE * SEPARATION_WEIGHT
(the latter holds for any speed; at speed exactly MAX_SPEED directly away
from the other agent, the dot product degenerates to zero). -/
theorem separation_points_away (pa va pb vb : Vec3)
    (heps : 0.001 < pa.distanceTo pb) (hrad : pa.distanceTo pb < SEPARATION_RADIUS)
    (hspeed : va.length < MAX_SPEED) :
    0 < (separationComponent (twoAgentSnap pa va pb vb) 0
          (neighborScan (twoAgentSnap pa va pb vb) 0 (List.finRange 2))).dot (pa.sub pb) ∧
    (separationComponent (twoAgentSnap pa va pb vb) 0
        (neighborScan (twoAgentSnap pa va pb vb) 0 (List.finRange 2))).length ≤
      MAX_FORCE * SEPARATION_WEIGHT := by
  have hd0 : 0 < pa.distanceTo pb := lt_trans (by norm_num) heps
  have h40 : pa.distanceTo pb < PERCEPTION_RADIUS := by
    have : SEPARATION_RADIUS < PERCEPTION_RADIUS := by
      norm_num [SEPARATION_RADIUS, PERCEPTION_RADIUS]
    linarith
  rw [neighborScan_two pa va pb vb h40 ⟨hrad, heps⟩]
  unfold separationComponent
  dsimp only
  rw [if_pos (by omega)]
  have hvel0 : twoAgentSnap pa va pb vb 0 = ⟨pa, va, Quat.identity⟩ := by
    unfold twoAgentSnap
    rw [if_pos rfl]
  rw [hvel0]
  dsimp only
  rw [Vec3.zero_add_left]
  rw [show (((0 : ℕ) + 1 : ℕ) : ℝ) = 1 by norm_num]
  rw [Vec3.div_one]
  -- name the away vector and its length
  set u := pa.sub pb with hu
  set d := pa.distanceTo pb with hdd
  have hdu : u.length = d := by
    rw [hdd]
    unfold Vec3.distanceTo
    rfl
  have hdne : d ≠ 0 := ne_of_gt hd0
  -- the accumulated repulsion and its normalization
  have hsepv : u.divideScalar (d * d) = u.multiplyScalar (1 / (d * d)) := rfl
  have hseplen : (u.multiplyScalar (1 / (d * d))).length = 1 / d := by
    rw [Vec3.length_smul, hdu, abs_of_pos (by positivity)]
    field_simp
  have hnorm : (u.multiplyScalar (1 / (d * d))).normalize = u.multiplyScalar (1 / d) := by
    unfold Vec3.normalize Vec3.divideScalar
    rw [hseplen]
    rw [if_neg (by positivity)]
    rw [Vec3.smul_smul]
    congr 1
    field_simp
  rw [hsepv]
  unfold steerForce
  rw [hnorm, Vec3.smul_smul]
  -- the raw steering vector and its dot with the away direction
  set w := (u.multiplyScalar (1 / d * MAX_SPEED)).sub va with hw
  have hdotw : w.dot u = MAX_SPEED * d - va.dot u := by
    rw [hw, Vec3.dot_sub_left, Vec3.dot_smul_left, Vec3.dot_self]
    have : u.lengthSq = d ^ 2 := by
      rw [← Vec3.sq_length u, hdu]
    rw [this]
    field_simp
    ring
  have hdotpos : 0 < w.dot u := by
    rw [hdotw]
    have hcs : va.dot u ≤ va.length * u.length := Vec3.dot_le_length_mul va u
    rw [hdu] at hcs
    nlinarith
  have hwne : w.length ≠ 0 := by
    intro h0
    have := (Vec3.length_eq_zero_iff w).mp h0
    rw [this, Vec3.zero_dot] at hdotpos
    exact lt_irrefl 0 hdotpos
  have hwpos : 0 < w.length := lt_of_le_of_ne (Vec3.length_nonneg w) (Ne.symm hwne)
  constructor
  · -- positive dot after the clamp and the weight
    unfold Vec3.clampLength Vec3.divideScalar
    rw [if_neg hwne, Vec3.smul_smul, Vec3.smul_smul, Vec3.dot_smul_left]
    have hminpos : 0 < min MAX_FORCE w.length := by
      apply lt_min
      · norm_num [MAX_FORCE]
      · exact hwpos
    have hscalarpos :
        0 < 1 / w.length * (max 0 (min MAX_FORCE w.length) * SEPARATION_WEIGHT) := by
      have hmaxpos : 0 < max 0 (min MAX_FORCE w.length) :=
        lt_of_lt_of_le hminpos (le_max_right 0 _)
      have : (0 : ℝ) < SEPARATION_WEIGHT := by norm_num [SEPARATION_WEIGHT]
      positivity
    exact mul_pos hscalarpos hdotpos
  · -- magnitude bound
    rw [Vec3.length_smul]
    have hclamp : (w.clampLength 0 MAX_FORCE).length ≤ MAX_FORCE :=
      Vec3.clampLength_length_le w MAX_FORCE (by norm_num [MAX_FORCE])
    rw [abs_of_pos (by norm_num [SEPARATION_WEIGHT] : (0:ℝ) < SEPARATION_WEIGHT)]
    have hsw : (0 : ℝ) < SEPARATION_WEIGHT := by norm_num [SEPARATION_WEIGHT]
    nlinarith [hclamp, hsw]

/-- Witness for the C3 amendment: two resting agents one unit apart. -/
theorem separation_points_away_witness :
    0 < (separationComponent (twoAgentSnap ⟨0, 0, 0⟩ Vec3.zero ⟨1, 0, 0⟩ Vec3.zero) 0
          (neighborScan (twoAgentSnap ⟨0, 0, 0⟩ Vec3.zero ⟨1, 0, 0⟩ Vec3.zero) 0
            (List.finRange 2))).dot (Vec3.sub ⟨0, 0, 0⟩ ⟨1, 0, 0⟩) ∧
    (separationComponent (twoAgentSnap ⟨0, 0, 0⟩ Vec3.zero ⟨1, 0, 0⟩ Vec3.zero) 0
        (neighborScan (twoAgentSnap ⟨0, 0, 0⟩ Vec3.zero ⟨1, 0, 0⟩ Vec3.zero) 0
          (List.finRange 2))).length ≤ MAX_FORCE * SEPARATION_WEIGHT :=
  separation_points_away ⟨0, 0, 0⟩ Vec3.zero ⟨1, 0, 0⟩ Vec3.zero
    (by rw [show Vec3.distanceTo ⟨0, 0, 0⟩ ⟨1, 0, 0⟩ = 1 by
        unfold Vec3.distanceTo Vec3.sub Vec3.length Vec3.lengthSq; norm_num]; norm_num)
    (by rw [show Vec3.distanceTo ⟨0, 0, 0⟩ ⟨1, 0, 0⟩ = 1 by
        unfold Vec3.distanceTo Vec3.sub Vec3.length Vec3.lengthSq; norm_num]
        norm_num [SEPARATION_RADIUS])
    (by rw [Vec3.zero_length]; norm_num [MAX_SPEED])

/-- Adding a zero scaled vector changes nothing. -/
theorem Vec3.addScaled_zero_zero : Vec3.zero.addScaledVector Vec3.zero 1 = Vec3.zero := by
  unfold Vec3.addScaledVector
  rw [Vec3.zero_smul, Vec3.add_zero_right]

/-- C6 counterexample: an agent whose companion object was rotated by an
earlier tick and whose speed after integration is zero (at or below the 0.01
guard) has the stale non-identity rotation published for the tick, not the
identity rotation. -/
theorem lowSpeed_publishes_stale_rotation :
    (integrateAgent stillTurnedAgent Vec3.zero 1).vel.length ≤ 0.01 ∧
    (publishTransform (integrateAgent stillTurnedAgent Vec3.zero 1)).quaternion ≠
      Quat.identity := by
  have hv : (integrateAgent stillTurnedAgent Vec3.zero 1).vel
      = if (Vec3.zero.addScaledVector Vec3.zero 1).length > MAX_SPEED
        then (Vec3.zero.addScaledVector Vec3.zero 1).normalize.multiplyScalar MAX_SPEED
        else Vec3.zero.addScaledVector Vec3.zero 1 := rfl
  have hv2 : (integrateAgent stillTurnedAgent Vec3.zero 1).vel = Vec3.zero := by
    rw [hv, Vec3.addScaled_zero_zero, Vec3.zero_length,
      if_neg (by norm_num [MAX_SPEED] : ¬ ((0 : ℝ) > MAX_SPEED))]
  constructor
  · rw [hv2, Vec3.zero_length]
    norm_num
  · have hq : (publishTransform (integrateAgent stillTurnedAgent Vec3.zero 1)).quaternion
        = if (integrateAgent stillTurnedAgent Vec3.zero 1).vel.length > 0.01
          then Quat.setFromUnitVectors FORWARD
            ((integrateAgent stillTurnedAgent Vec3.zero 1).vel.divideScalar
              (integrateAgent stillTurnedAgent Vec3.zero 1).vel.length)
          else stillTurnedAgent.quat := rfl
    rw [hq, hv2, Vec3.zero_length, if_neg (by norm_num : ¬ ((0 : ℝ) > 0.01))]
    unfold stillTurnedAgent Quat.identity
    dsimp only
    intro heq
    have := congrArg Quat.z heq
    norm_num at this

/-- C6 amended: for every agent whose speed after integration is at or below
the 0.01 guard, the transform published for that tick carries the agent's
previous rotation unchanged (the identity only until some tick first sets a
rotation); for speed above the guard it carries the shortest-arc rotation
taking the fixed FORWARD axis to the normalized velocity direction. -/
theorem integrate_publishes_rotation_selection (a : Agent) (acc : Vec3) (dt : ℝ) :
    ((integrateAgent a acc dt).vel.length ≤ 0.01 →
      (publishTransform (integrateAgent a acc dt)).quaternion = a.quat) ∧
    (0.01 < (integrateAgent a acc dt).vel.length →
      (publishTransform (integrateAgent a acc dt)).quaternion =
        Quat.setFromUnitVectors FORWARD
          ((integrateAgent a acc dt).vel.divideScalar
            (integrateAgent a acc dt).vel.length)) := by
  have hq : (publishTransform (integrateAgent a acc dt)).quaternion
      = if (integrateAgent a acc dt).vel.length > 0.01
        then Quat.setFromUnitVectors FORWARD
          ((integrateAgent a acc dt).vel.divideScalar (integrateAgent a acc dt).vel.length)
        else a.quat := rfl
  constructor
  · intro hle
    rw [hq, if_neg (not_lt.mpr hle)]
  · intro hgt
    rw [hq, if_pos hgt]

/-- Witness for the C6 amendment: a never-rotated resting agent keeps its
identity quaternion. -/
theorem integrate_publishes_rotation_selection_witness :
    (publishTransform (integrateAgent restingAgent Vec3.zero 1)).quaternion =
      restingAgent.quat :=
  (integrate_publishes_rotation_selection restingAgent Vec3.zero 1).1 (by
    have hv : (integrateAgent restingAgent Vec3.zero 1).vel
        = if (Vec3.zero.addScaledVector Vec3.zero 1).length > MAX_SPEED
          then (Vec3.zero.addScaledVector Vec3.zero 1).normalize.multiplyScalar MAX_SPEED
          else Vec3.zero.addScaledVector Vec3.zero 1 := rfl
    rw [hv, Vec3.addScaled_zero_zero, Vec3.zero_length,
      if_neg (by norm_num [MAX_SPEED] : ¬ ((0 : ℝ) > MAX_SPEED)), Vec3.zero_length]
    norm_num)
